import Mathlib

/-!
# Verification of the OutfitFlow background-removal service

Shallow embedding of `src/OutfitFlowApi/app.py` (FastAPI application
"Virtual Wardrobe Background Remover").

Modelling choices:
* Raw byte strings are `List Nat`.
* A PIL image (`PIL.Image.Image`) is modelled as a record of its mode
  string, width, height, and an abstract pixel-content identifier
  (`pixels : Nat`); the pixel-level primitives of the PIL library
  (decode, convert, resize resampling, paste) and the external calls
  (`rembg.remove`, JPEG encoding, the zipfile writer) are out of scope
  per the specification and are passed in as an `ImageLib` record of
  fallible functions (`Except String` models a raised Python exception
  carrying its message `str(e)`).
* The code's own logic — mode-normalization condition, resize
  dimension arithmetic, error wrapping, endpoint validation, the batch
  loop with its skip policy and ZIP entry naming — is translated
  directly from the source.
* Python's float division `MAX_IMAGE_WIDTH / image.width` followed by
  `int(...)` truncation is modelled with exact rational arithmetic:
  `int(h * (1024 / w))` becomes the natural-number floor division
  `h * 1024 / w`.
* The response of the batch endpoint carries the list of ZIP entries
  (name, bytes) in the order they are written; the ZIP byte encoding
  itself is the external `zipfile` writer.
* The `logging` calls are side effects onto process-global logger
  state; `process_image_log` threads that log explicitly to state
  determinism/state-independence properties.
-/

namespace OutfitFlow

/-- Raw byte strings (Python `bytes`). -/
abbrev Bytes := List Nat

/-- `MAX_IMAGE_WIDTH = 1024` from app.py. -/
def MAX_IMAGE_WIDTH : Nat := 1024

/-- `BACKGROUND_COLOR = (248, 249, 250, 255)` from app.py. -/
def BACKGROUND_COLOR : Nat × Nat × Nat × Nat := (248, 249, 250, 255)

/-- `MAX_BATCH_SIZE = 15` from app.py. -/
def MAX_BATCH_SIZE : Nat := 15

/-- A PIL image: mode string, dimensions, abstract pixel content. -/
structure PImage where
  mode : String
  width : Nat
  height : Nat
  pixels : Nat
deriving DecidableEq

/-- The external library surface used by app.py, treated as an opaque
collaborator per the spec: PIL decode/convert/resize/paste primitives,
`rembg.remove`, and JPEG encoding.  Each call may raise (`.error msg`). -/
structure ImageLib where
  /-- `Image.open(io.BytesIO(b))`: decode bytes, or raise. -/
  decode : Bytes → Except String PImage
  /-- pixel content of `img.convert(target)`. -/
  convertPixels : PImage → String → Except String Nat
  /-- pixel content of `img.resize((w, h), LANCZOS)`. -/
  resamplePixels : PImage → Nat → Nat → Except String Nat
  /-- `rembg.remove(img)`. -/
  removeBg : PImage → Except String PImage
  /-- pixel content of `Image.new('RGBA', size, BACKGROUND_COLOR)` followed by
  `background.paste(out, (0, 0), out)` (alpha-composite over the fixed color). -/
  pastePixels : PImage → Except String Nat
  /-- `img.save(buffer, format="JPEG", quality=90, optimize=True)` then
  `buffer.getvalue()`. -/
  saveJPEG : PImage → Except String Bytes

/-- Python `s.startswith(pre)`: prefix test on the character sequence. -/
def startswith (s pre : String) : Bool := pre.data.isPrefixOf s.data

/-- The mode-normalization condition of app.py lines 56-59:
`'RGBA' if mode in ('RGBA', 'LA', 'P') else 'RGB'`. -/
def convertMode (m : String) : String :=
  if m = "RGBA" ∨ m = "LA" ∨ m = "P" then "RGBA" else "RGB"

/-- Step 2 of `process_image`: `input_image.convert(convertMode mode)`. -/
def convertStep (lib : ImageLib) (img : PImage) : Except String PImage :=
  match lib.convertPixels img (convertMode img.mode) with
  | .error m => .error m
  | .ok px => .ok ⟨convertMode img.mode, img.width, img.height, px⟩

/-- `optimize_image` from app.py lines 36-43: if `width > MAX_IMAGE_WIDTH`,
resize to `(MAX_IMAGE_WIDTH, int(height * (MAX_IMAGE_WIDTH / width)))` with
LANCZOS resampling; otherwise return the image unchanged.  The float
computation `int(image.height * ratio)` is modelled exactly as the floor
`height * 1024 / width`. -/
def optimize_image (lib : ImageLib) (image : PImage) : Except String PImage :=
  if image.width > MAX_IMAGE_WIDTH then
    let new_height := image.height * MAX_IMAGE_WIDTH / image.width
    match lib.resamplePixels image MAX_IMAGE_WIDTH new_height with
    | .error m => .error m
    | .ok px => .ok ⟨image.mode, MAX_IMAGE_WIDTH, new_height, px⟩
  else .ok image

/-- Step 5 of `process_image`: `background = Image.new('RGBA', out.size,
BACKGROUND_COLOR); background.paste(out, (0, 0), out)` — an RGBA canvas of
the same size as the removal output. -/
def compositeStep (lib : ImageLib) (output_image : PImage) : Except String PImage :=
  match lib.pastePixels output_image with
  | .error m => .error m
  | .ok px => .ok ⟨"RGBA", output_image.width, output_image.height, px⟩

/-- Step 6 (first half) of `process_image`: `background.convert('RGB')`. -/
def toRGBStep (lib : ImageLib) (img : PImage) : Except String PImage :=
  match lib.convertPixels img "RGB" with
  | .error m => .error m
  | .ok px => .ok ⟨"RGB", img.width, img.height, px⟩

/-- The body of the `try:` block of `process_image` (app.py lines 51-81):
decode, normalize mode, optimize size, remove background, composite onto the
fixed background, flatten to RGB, encode JPEG.  The first raised exception
aborts the chain with its message. -/
def pipelineCore (lib : ImageLib) (image_bytes : Bytes) : Except String Bytes :=
  match lib.decode image_bytes with
  | .error m => .error m
  | .ok i0 =>
  match convertStep lib i0 with
  | .error m => .error m
  | .ok i1 =>
  match optimize_image lib i1 with
  | .error m => .error m
  | .ok i2 =>
  match lib.removeBg i2 with
  | .error m => .error m
  | .ok output_image =>
  match compositeStep lib output_image with
  | .error m => .error m
  | .ok background =>
  match toRGBStep lib background with
  | .error m => .error m
  | .ok final_image => lib.saveJPEG final_image

/-- An `HTTPException(status_code=..., detail=...)`. -/
structure HTTPErr where
  status_code : Nat
  detail : String
deriving DecidableEq

/-- `process_image` from app.py lines 46-85: run the pipeline; any exception
is caught and re-raised as `HTTPException(500, f"Error procesando imagen:
{str(e)}")`. -/
def process_image (lib : ImageLib) (image_bytes : Bytes) : Except HTTPErr Bytes :=
  match pipelineCore lib image_bytes with
  | .ok b => .ok b
  | .error m => .error ⟨500, "Error procesando imagen: " ++ m⟩

/-- A logged variant of the pipeline body, threading the process-global
logger state (a list of emitted messages) exactly where app.py calls the
logger inside the `try:` block: the resize message inside `optimize_image`
(emitted after a successful resize), and `"Removiendo fondo..."` right
before `remove`. -/
def pipelineCoreLog (lib : ImageLib) (log : List String) (image_bytes : Bytes) :
    Except String Bytes × List String :=
  match lib.decode image_bytes with
  | .error m => (.error m, log)
  | .ok i0 =>
  match convertStep lib i0 with
  | .error m => (.error m, log)
  | .ok i1 =>
  match optimize_image lib i1 with
  | .error m => (.error m, log)
  | .ok i2 =>
  let log1 := if i1.width > MAX_IMAGE_WIDTH then
      log ++ ["Imagen redimensionada a " ++ toString MAX_IMAGE_WIDTH ++ "x"
                ++ toString i2.height]
    else log
  let log2 := log1 ++ ["Removiendo fondo..."]
  match lib.removeBg i2 with
  | .error m => (.error m, log2)
  | .ok output_image =>
  match compositeStep lib output_image with
  | .error m => (.error m, log2)
  | .ok background =>
  match toRGBStep lib background with
  | .error m => (.error m, log2)
  | .ok final_image => (lib.saveJPEG final_image, log2)

/-- `process_image` with the logger state made explicit: on success the code
logs `"Imagen procesada exitosamente"`; on any exception the `except:` block
logs the wrapped message before raising `HTTPException(500, ...)`. -/
def process_image_log (lib : ImageLib) (log : List String) (image_bytes : Bytes) :
    Except HTTPErr Bytes × List String :=
  match pipelineCoreLog lib log image_bytes with
  | (.ok b, lg) => (.ok b, lg ++ ["Imagen procesada exitosamente"])
  | (.error m, lg) =>
      (.error ⟨500, "Error procesando imagen: " ++ m⟩,
       lg ++ ["Error procesando imagen: " ++ m])

/-- A `fastapi.UploadFile`: filename, declared content type, raw contents
(the result of `await file.read()`). -/
structure UploadFile where
  filename : String
  content_type : String
  contents : Bytes
deriving DecidableEq

/-- A successful `Response(...)` of the single endpoint. -/
structure FileResponse where
  content : Bytes
  media_type : String
  content_disposition : String
deriving DecidableEq

/-- `remove_background_single` (app.py lines 107-143), the
`POST /remove-background` handler: reject a declared content type that does
not start with `"image/"` with a 400, else process the bytes; an
`HTTPException` raised inside (the 400, or the 500 from `process_image`) is
re-raised unchanged by the `except HTTPException` arm. -/
def remove_background_single (lib : ImageLib) (file : UploadFile) :
    Except HTTPErr FileResponse :=
  if !startswith file.content_type "image/" then
    .error ⟨400, "El archivo debe ser una imagen"⟩
  else
    match process_image lib file.contents with
    | .error e => .error e
    | .ok processed_bytes =>
        .ok { content := processed_bytes
              media_type := "image/jpeg"
              content_disposition :=
                "attachment; filename=\"processed_" ++ file.filename ++ "\"" }

/-- `f"{idx:03d}"`: decimal digits of `idx` left-padded with zeros to at
least three characters. -/
def pad3 (n : Nat) : String :=
  let s := toString n
  if s.length < 3 then String.mk (List.replicate (3 - s.length) '0') ++ s else s

/-- `file.filename.rsplit('.', 1)[0] if '.' in file.filename else
file.filename` (app.py line 191): strip the final dot and everything after
it when the filename contains a dot, else the filename unchanged. -/
def base_name (filename : String) : String :=
  if '.' ∈ filename.data then
    String.mk (((filename.data.reverse.dropWhile (fun c => !(c == '.'))).drop 1).reverse)
  else filename

/-- `zip_filename = f"{idx:03d}_{base_name}.jpg"` (app.py line 192). -/
def zipName (idx : Nat) (filename : String) : String :=
  pad3 idx ++ "_" ++ base_name filename ++ ".jpg"

/-- One entry written into the ZIP archive by `zip_file.writestr(name, data)`. -/
structure ZipEntry where
  name : String
  data : Bytes
deriving DecidableEq

/-- One iteration of the batch loop body (app.py lines 176-198) for the item
at zero-based position `idx`: skip (`continue`) when the declared content
type is not `image/*`; otherwise process, and on an exception skip; on
success produce the ZIP entry `{idx:03d}_{base_name}.jpg`. -/
def batchItem (lib : ImageLib) (idx : Nat) (file : UploadFile) : Option ZipEntry :=
  if !startswith file.content_type "image/" then none
  else
    match process_image lib file.contents with
    | .error _ => none
    | .ok processed_bytes => some ⟨zipName idx file.filename, processed_bytes⟩

/-- The batch loop `for idx, file in enumerate(files)` together with the
index that produced each written entry (kept for stating order/uniqueness
properties; the index is the item's position in the original list). -/
def batchEntriesIdx (lib : ImageLib) (files : List UploadFile) :
    List (Nat × ZipEntry) :=
  files.enum.filterMap fun p => (batchItem lib p.1 p.2).map fun e => (p.1, e)

/-- The entries written into the ZIP archive, in writing order. -/
def batchEntries (lib : ImageLib) (files : List UploadFile) : List ZipEntry :=
  (batchEntriesIdx lib files).map Prod.snd

/-- A successful `Response(...)` of the batch endpoint: the ZIP archive is
represented by its ordered entry list (the byte encoding is the external
`zipfile` writer). -/
structure BatchResponse where
  entries : List ZipEntry
  media_type : String
  content_disposition : String
deriving DecidableEq

/-- `remove_background_batch` (app.py lines 146-219), the
`POST /remove-background-batch` handler: reject more than `MAX_BATCH_SIZE`
files, then an empty list, with HTTP 400, before the loop runs; otherwise
run the loop and return the archive. -/
def remove_background_batch (lib : ImageLib) (files : List UploadFile) :
    Except HTTPErr BatchResponse :=
  if files.length > MAX_BATCH_SIZE then
    .error ⟨400, "Máximo " ++ toString MAX_BATCH_SIZE
                  ++ " imágenes por lote. Recibidas: " ++ toString files.length⟩
  else if files.length = 0 then
    .error ⟨400, "No se recibieron imágenes"⟩
  else
    .ok { entries := batchEntries lib files
          media_type := "application/zip"
          content_disposition := "attachment; filename=\"processed_garments.zip\"" }

/-- A concrete, fully evaluable instance of the external library surface,
used to exhibit concrete runs of the embedded code. -/
def idLib : ImageLib where
  decode := fun _ => .ok ⟨"RGB", 2048, 3, 0⟩
  convertPixels := fun _ _ => .ok 0
  resamplePixels := fun _ _ _ => .ok 0
  removeBg := fun i => .ok i
  pastePixels := fun _ => .ok 0
  saveJPEG := fun _ => .ok [255, 216]

/-- The color modes a PIL `Image.open` call can produce (the `mode` field
set by Pillow's format plugins: PNG, JPEG, GIF, BMP, TIFF, WebP, ...).
Modes such as `PA`, `RGBa`, `La` or `HSV` exist only as targets of an
explicit `convert` and are never returned by a decoder. -/
def decoderModes : List String :=
  ["1", "L", "LA", "P", "RGB", "RGBA", "CMYK", "YCbCr", "I", "F",
   "LAB", "RGBX", "I;16", "I;16B", "I;16L", "I;16N"]

/-- Modelled from the spec: the PIL modes that include an alpha channel
(`RGBA`, `LA`, and the convert-only modes `PA`, `RGBa`, `La`). -/
def modeHasAlpha (m : String) : Bool :=
  ["RGBA", "LA", "PA", "RGBa", "La"].contains m

/-- Modelled from the spec: the PIL modes that include a palette channel
(`P`, and the convert-only mode `PA`). -/
def modeHasPalette (m : String) : Bool :=
  ["P", "PA"].contains m

/-- Modelled from the spec: `round(original_height × 1024/original_width)`,
the rounded-to-nearest scaled height (half rounds up; at every half-tie with
2 as the result, round-half-up and round-half-to-even agree, so the choice
of tie-break does not affect the comparison below). -/
def roundHeight (h w : Nat) : Nat :=
  (2 * (h * MAX_IMAGE_WIDTH) + w) / (2 * w)

/-- A concrete decoded image used in concrete runs: mode RGB, 2048×3. -/
def exImg : PImage := ⟨"RGB", 2048, 3, 0⟩

/-- A concrete non-image upload. -/
def textFile : UploadFile := ⟨"notes.txt", "text/plain", [1, 2, 3]⟩

/-- A concrete image upload. -/
def imgFile : UploadFile := ⟨"shirt.png", "image/png", [4, 5, 6]⟩

/-- A concrete mixed batch: one non-image item followed by one image item. -/
def demoBatch : List UploadFile := [textFile, imgFile]

/-- A concrete batch of two uploads sharing one original filename. -/
def dupBatch : List UploadFile := [imgFile, imgFile]

/-- "Some step of the pipeline raised an exception with message `m`": the
first failing call among decode (step 1), mode conversion (step 2), resize
(step 3), background removal (step 4), composite (step 5), RGB flattening /
JPEG encoding (step 6), with every earlier step having succeeded. -/
def StepFailure (lib : ImageLib) (b : Bytes) (m : String) : Prop :=
  lib.decode b = .error m ∨
  ∃ i0, lib.decode b = .ok i0 ∧
    (convertStep lib i0 = .error m ∨
     ∃ i1, convertStep lib i0 = .ok i1 ∧
       (optimize_image lib i1 = .error m ∨
        ∃ i2, optimize_image lib i1 = .ok i2 ∧
          (lib.removeBg i2 = .error m ∨
           ∃ o, lib.removeBg i2 = .ok o ∧
             (compositeStep lib o = .error m ∨
              ∃ bg, compositeStep lib o = .ok bg ∧
                (toRGBStep lib bg = .error m ∨
                 ∃ fi, toRGBStep lib bg = .ok fi ∧ lib.saveJPEG fi = .error m)))))

/-- `(s ++ t).data = s.data ++ t.data` (definitional for `String.append`). -/
theorem data_append (s t : String) : (s ++ t).data = s.data ++ t.data := rfl

/-- C1 counterexample: on a decoded 2048×3 image the resize step produces
height `int(3 * 1024/2048) = int(1.5) = 1` (truncation), whereas the claim's
`round(original_height × 1024/original_width)` is `2`; so the claimed height
formula fails at this input. -/
theorem resize_height_is_not_rounded :
    optimize_image idLib exImg = .ok ⟨"RGB", 1024, 1, 0⟩ ∧
    roundHeight exImg.height exImg.width = 2 ∧ (1 : Nat) ≠ 2 := by
  refine ⟨rfl, by decide, by decide⟩

/-- C1 (amended): if the decoded image's width is at most 1024 the resize
step leaves it unchanged; if the width exceeds 1024 and the resize succeeds,
the result has width exactly 1024 and height `⌊original_height ×
1024/original_width⌋` (integer truncation, not rounding to nearest). -/
theorem optimize_image_dims (lib : ImageLib) (image : PImage) :
    (image.width ≤ MAX_IMAGE_WIDTH → optimize_image lib image = .ok image) ∧
    (MAX_IMAGE_WIDTH < image.width → ∀ out, optimize_image lib image = .ok out →
      out.width = MAX_IMAGE_WIDTH ∧
      out.height = image.height * MAX_IMAGE_WIDTH / image.width) := by
  constructor
  · intro h
    unfold optimize_image
    rw [if_neg (by omega)]
  · intro h out hout
    unfold optimize_image at hout
    rw [if_pos h] at hout
    cases hres : lib.resamplePixels image MAX_IMAGE_WIDTH
        (image.height * MAX_IMAGE_WIDTH / image.width) <;>
      simp only [hres] at hout
    · exact absurd hout (by simp)
    · cases hout
      exact ⟨rfl, rfl⟩

/-- Witness for `optimize_image_dims`: a 800×600 image is unchanged, and the
concrete 2048×3 run yields width 1024 and truncated height 1. -/
theorem optimize_image_dims_witness :
    optimize_image idLib ⟨"RGB", 800, 600, 7⟩ = .ok ⟨"RGB", 800, 600, 7⟩ ∧
    ((⟨"RGB", 1024, 1, 0⟩ : PImage).width = MAX_IMAGE_WIDTH ∧
     (⟨"RGB", 1024, 1, 0⟩ : PImage).height
        = exImg.height * MAX_IMAGE_WIDTH / exImg.width) :=
  ⟨(optimize_image_dims idLib ⟨"RGB", 800, 600, 7⟩).1 (by decide),
   (optimize_image_dims idLib exImg).2 (by decide) ⟨"RGB", 1024, 1, 0⟩ rfl⟩

/-- C6: for every mode a PIL decoder can produce, the normalization step
converts to RGBA exactly when the mode includes an alpha or palette channel,
and to RGB otherwise. -/
theorem convert_mode_normalization :
    ∀ m ∈ decoderModes,
      convertMode m
        = (if modeHasAlpha m || modeHasPalette m then "RGBA" else "RGB") := by
  decide

/-- Witness for `convert_mode_normalization` at the palette mode `P`. -/
theorem convert_mode_normalization_witness :
    convertMode "P"
      = (if modeHasAlpha "P" || modeHasPalette "P" then "RGBA" else "RGB") :=
  convert_mode_normalization "P" (by decide)

/-- C4: a request to the single-image endpoint whose declared content type
does not start with `image/` is answered with HTTP 400 and the descriptive
message, and is never answered with HTTP 500. -/
theorem single_non_image_is_400 (lib : ImageLib) (file : UploadFile)
    (h : startswith file.content_type "image/" = false) :
    remove_background_single lib file
        = .error ⟨400, "El archivo debe ser una imagen"⟩ ∧
    ∀ d, remove_background_single lib file ≠ .error ⟨500, d⟩ := by
  have h1 : remove_background_single lib file
      = .error ⟨400, "El archivo debe ser una imagen"⟩ := by
    simp [remove_background_single, h]
  refine ⟨h1, fun d heq => ?_⟩
  rw [h1] at heq
  simp at heq

/-- Witness for `single_non_image_is_400` on a `text/plain` upload. -/
theorem single_non_image_is_400_witness :
    remove_background_single idLib textFile
        = .error ⟨400, "El archivo debe ser una imagen"⟩ ∧
    ∀ d, remove_background_single idLib textFile ≠ .error ⟨500, d⟩ :=
  single_non_image_is_400 idLib textFile (by decide)

/-- C5: the batch endpoint rejects an empty list and a list of more than 15
items with HTTP 400, and that answer is computed before and independently of
any item processing (it does not depend on the processing library at all);
every list of 1 to 15 items passes the validation and yields a success
response. -/
theorem batch_size_validation (lib : ImageLib) (files : List UploadFile) :
    (files.length = 0 → remove_background_batch lib files
        = .error ⟨400, "No se recibieron imágenes"⟩) ∧
    (MAX_BATCH_SIZE < files.length → remove_background_batch lib files
        = .error ⟨400, "Máximo " ++ toString MAX_BATCH_SIZE
            ++ " imágenes por lote. Recibidas: " ++ toString files.length⟩) ∧
    ((files.length = 0 ∨ MAX_BATCH_SIZE < files.length) →
      ∀ lib' : ImageLib, remove_background_batch lib files
          = remove_background_batch lib' files) ∧
    (1 ≤ files.length → files.length ≤ MAX_BATCH_SIZE →
      ∃ r : BatchResponse, remove_background_batch lib files = .ok r) := by
  refine ⟨fun h0 => ?_, fun hg => ?_, fun hor lib' => ?_, fun hlo hhi => ?_⟩
  · unfold remove_background_batch
    rw [if_neg (by omega), if_pos h0]
  · unfold remove_background_batch
    rw [if_pos hg]
  · rcases hor with h0 | hg
    · unfold remove_background_batch
      rw [if_neg (by omega), if_pos h0, if_neg (by omega), if_pos h0]
    · unfold remove_background_batch
      rw [if_pos hg, if_pos hg]
  · refine ⟨⟨batchEntries lib files, "application/zip",
        "attachment; filename=\"processed_garments.zip\""⟩, ?_⟩
    unfold remove_background_batch
    rw [if_neg (by omega), if_neg (by omega)]

/-- Witness for `batch_size_validation`: the empty batch and a batch of 16
items are rejected with 400; a singleton batch passes validation. -/
theorem batch_size_validation_witness :
    remove_background_batch idLib [] = .error ⟨400, "No se recibieron imágenes"⟩ ∧
    remove_background_batch idLib (List.replicate 16 textFile)
        = .error ⟨400, "Máximo " ++ toString MAX_BATCH_SIZE
            ++ " imágenes por lote. Recibidas: "
            ++ toString (List.replicate 16 textFile).length⟩ ∧
    ∃ r : BatchResponse, remove_background_batch idLib [textFile] = .ok r :=
  ⟨(batch_size_validation idLib []).1 rfl,
   (batch_size_validation idLib (List.replicate 16 textFile)).2.1 (by decide),
   (batch_size_validation idLib [textFile]).2.2.2 (by decide) (by decide)⟩

/-- A pipeline failure with message `m` always originates in one of the six
steps, with all earlier steps having succeeded. -/
theorem stepFailure_of_core {lib : ImageLib} {b : Bytes} {m : String}
    (h : pipelineCore lib b = .error m) : StepFailure lib b m := by
  unfold StepFailure
  unfold pipelineCore at h
  cases h0 : lib.decode b <;> simp only [h0] at h
  case error => injection h with hm; exact Or.inl (by rw [hm])
  case ok i0 =>
  refine Or.inr ⟨i0, rfl, ?_⟩
  cases h1 : convertStep lib i0 <;> simp only [h1] at h
  case error => injection h with hm; exact Or.inl (by rw [hm])
  case ok i1 =>
  refine Or.inr ⟨i1, rfl, ?_⟩
  cases h2 : optimize_image lib i1 <;> simp only [h2] at h
  case error => injection h with hm; exact Or.inl (by rw [hm])
  case ok i2 =>
  refine Or.inr ⟨i2, rfl, ?_⟩
  cases h3 : lib.removeBg i2 <;> simp only [h3] at h
  case error => injection h with hm; exact Or.inl (by rw [hm])
  case ok o =>
  refine Or.inr ⟨o, rfl, ?_⟩
  cases h4 : compositeStep lib o <;> simp only [h4] at h
  case error => injection h with hm; exact Or.inl (by rw [hm])
  case ok bg =>
  refine Or.inr ⟨bg, rfl, ?_⟩
  cases h5 : toRGBStep lib bg <;> simp only [h5] at h
  case error => injection h with hm; exact Or.inl (by rw [hm])
  case ok fi =>
  exact Or.inr ⟨fi, rfl, h⟩

/-- C7: every run of the single-image processor either succeeds (the whole
six-step chain succeeded and its JPEG bytes are returned unchanged — no
partial output), or some step raised and the run fails with exactly one
HTTP 500 error whose detail is `"Error procesando imagen: "` followed by the
original step's error message. -/
theorem process_image_error_wrapping (lib : ImageLib) (b : Bytes) :
    (∃ out, pipelineCore lib b = .ok out ∧ process_image lib b = .ok out) ∨
    (∃ m, StepFailure lib b m ∧
      process_image lib b = .error ⟨500, "Error procesando imagen: " ++ m⟩) := by
  cases hc : pipelineCore lib b with
  | ok out =>
      exact Or.inl ⟨out, rfl, by unfold process_image; rw [hc]⟩
  | error m =>
      exact Or.inr ⟨m, stepFailure_of_core hc, by unfold process_image; rw [hc]⟩

/-- For every index a valid batch can produce (below 15), the `%03d` prefix
has exactly three characters. -/
theorem pad3_data_len : ∀ i, i < 15 → (pad3 i).data.length = 3 := by decide

/-- Distinct indices below 15 produce distinct `%03d` prefixes. -/
theorem pad3_ne : ∀ i, i < 15 → ∀ j, j < 15 → i ≠ j → pad3 i ≠ pad3 j := by decide

/-- ZIP entry names built from distinct indices below 15 are distinct,
whatever the two original filenames are. -/
theorem zipName_ne {i j : Nat} (hi : i < 15) (hj : j < 15) (hij : i ≠ j)
    (a b : String) : zipName i a ≠ zipName j b := by
  intro h
  have hd : (pad3 i).data ++ ("_" ++ base_name a ++ ".jpg").data
      = (pad3 j).data ++ ("_" ++ base_name b ++ ".jpg").data := by
    have h2 := congrArg String.data h
    simp only [zipName, data_append, List.append_assoc] at h2 ⊢
    exact h2
  have heq : (pad3 i).data = (pad3 j).data :=
    (List.append_inj hd (by rw [pad3_data_len i hi, pad3_data_len j hj])).1
  exact pad3_ne i hi j hj hij (congrArg String.mk heq)

/-- Every ZIP entry name ends in `.jpg`. -/
theorem zipName_suffix (i : Nat) (s : String) :
    ".jpg".data <:+ (zipName i s).data :=
  ⟨(pad3 i ++ "_" ++ base_name s).data,
   (data_append (pad3 i ++ "_" ++ base_name s) ".jpg").symm⟩

/-- The index components of an enumerated list are `range`. -/
theorem enum_fst_range {α : Type} (l : List α) :
    l.enum.map Prod.fst = List.range l.length := by
  rw [List.range_eq_range']
  exact List.enumFrom_map_fst 0 l

/-- An index appearing in an enumerated list is below the list's length. -/
theorem enum_fst_lt {α : Type} {l : List α} {i : Nat} {x : α}
    (h : (i, x) ∈ l.enum) : i < l.length := by
  have h1 : i ∈ l.enum.map Prod.fst := List.mem_map.mpr ⟨(i, x), h, rfl⟩
  rw [enum_fst_range] at h1
  exact List.mem_range.mp h1

/-- Every indexed batch entry comes from the item at that index of the
original list, and that item's loop body produced it. -/
theorem mem_batchEntriesIdx {lib : ImageLib} {files : List UploadFile}
    {i : Nat} {e : ZipEntry} (h : (i, e) ∈ batchEntriesIdx lib files) :
    ∃ f, (i, f) ∈ files.enum ∧ batchItem lib i f = some e := by
  obtain ⟨p, hp, hpe⟩ := List.mem_filterMap.mp h
  obtain ⟨x, hx, hxe⟩ := Option.map_eq_some'.mp hpe
  injection hxe with hxe1 hxe2
  subst hxe1; subst hxe2
  exact ⟨p.2, hp, hx⟩

/-- An entry produced by the loop body of some enumerated item is in the
archive. -/
theorem batchEntries_mem {lib : ImageLib} {files : List UploadFile}
    {i : Nat} {f : UploadFile} {e : ZipEntry}
    (hmem : (i, f) ∈ files.enum) (hitem : batchItem lib i f = some e) :
    e ∈ batchEntries lib files := by
  have hpair : (i, e) ∈ batchEntriesIdx lib files :=
    List.mem_filterMap.mpr ⟨(i, f), hmem, by simp [hitem]⟩
  exact List.mem_map.mpr ⟨(i, e), hpair, rfl⟩

/-- The loop body writes an entry only when the content type is `image/*`
and processing succeeded, and that entry is the processed bytes under the
`{idx:03d}_{basename}.jpg` name. -/
theorem batchItem_eq_some {lib : ImageLib} {i : Nat} {f : UploadFile}
    {e : ZipEntry} (h : batchItem lib i f = some e) :
    ∃ b, process_image lib f.contents = .ok b
      ∧ e = ⟨zipName i f.filename, b⟩ := by
  unfold batchItem at h
  cases hs : startswith f.content_type "image/" <;> simp only [hs] at h
  · simp at h
  · cases hp : process_image lib f.contents <;> simp only [hp] at h
    · simp at h
    · refine ⟨_, rfl, ?_⟩
      simp at h
      exact h.symm

/-- The index components written by the batch loop form a sublist of the
enumerated indices. -/
theorem batchIdx_fst_sublist (lib : ImageLib) :
    ∀ l : List (Nat × UploadFile),
      ((l.filterMap fun p => (batchItem lib p.1 p.2).map fun e => (p.1, e)).map
          Prod.fst).Sublist (l.map Prod.fst)
  | [] => by simp
  | p :: l => by
      cases hb : batchItem lib p.1 p.2 with
      | none =>
          simp only [List.filterMap_cons, hb, Option.map_none', List.map_cons]
          exact List.Sublist.cons p.1 (batchIdx_fst_sublist lib l)
      | some e =>
          simp only [List.filterMap_cons, hb, Option.map_some', List.map_cons]
          exact List.Sublist.cons₂ p.1 (batchIdx_fst_sublist lib l)

/-- The indices of the written entries are strictly increasing: entries
appear in input order and keep their original position numbers. -/
theorem batchIdx_pairwise_lt (lib : ImageLib) (files : List UploadFile) :
    List.Pairwise (· < ·) ((batchEntriesIdx lib files).map Prod.fst) := by
  have hs := batchIdx_fst_sublist lib files.enum
  rw [enum_fst_range] at hs
  exact List.Pairwise.sublist hs (List.pairwise_lt_range _)

/-- A filename without a dot is its own base name. -/
theorem base_name_no_dot (s : String) (hs : ¬ '.' ∈ s.data) :
    base_name s = s := by
  unfold base_name
  rw [if_neg hs]

/-- Stripping the final extension: for a dot-free extension `ext`,
`base_name (s ++ "." ++ ext) = s`. -/
theorem base_name_strip (s ext : String) (hext : ¬ '.' ∈ ext.data) :
    base_name (s ++ "." ++ ext) = s := by
  have hdata : (s ++ "." ++ ext).data = s.data ++ '.' :: ext.data := by
    simp only [data_append, List.append_assoc]
    rfl
  have hc : '.' ∈ (s ++ "." ++ ext).data := by
    rw [hdata]
    exact List.mem_append_right _ (List.mem_cons_self _ _)
  unfold base_name
  rw [if_pos hc, hdata, List.reverse_append, List.reverse_cons,
      List.append_assoc]
  rw [List.dropWhile_append_of_pos ?hall]
  case hall =>
    intro c hcmem
    have hcm : c ∈ ext.data := List.mem_reverse.mp hcmem
    have hne : c ≠ '.' := fun hcc => hext (hcc ▸ hcm)
    simp [hne]
  rw [show List.dropWhile (fun c => !(c == '.')) (['.'] ++ s.data.reverse)
        = '.' :: s.data.reverse from rfl]
  rw [show ('.' :: s.data.reverse).drop 1 = s.data.reverse from rfl,
      List.reverse_reverse]

/-- C2: a successfully processed batch item at zero-based position `i` of
the uploaded list contributes the entry `{i:03d}_{basename}.jpg` (the index
is the position in the original list, kept even when other items are
skipped); the base name strips exactly the final dot-extension when one
exists and is the whole filename otherwise; and the archive lists entries in
input order (their source indices are strictly increasing). -/
theorem batch_entry_naming (lib : ImageLib) (files : List UploadFile) :
    (∀ i f b, (i, f) ∈ files.enum →
        startswith f.content_type "image/" = true →
        process_image lib f.contents = .ok b →
        (⟨pad3 i ++ "_" ++ base_name f.filename ++ ".jpg", b⟩ : ZipEntry)
          ∈ batchEntries lib files) ∧
    (∀ s : String, ¬ '.' ∈ s.data → base_name s = s) ∧
    (∀ s ext : String, ¬ '.' ∈ ext.data → base_name (s ++ "." ++ ext) = s) ∧
    List.Pairwise (· < ·) ((batchEntriesIdx lib files).map Prod.fst) ∧
    batchEntries lib files = (batchEntriesIdx lib files).map Prod.snd := by
  refine ⟨?_, base_name_no_dot, base_name_strip,
    batchIdx_pairwise_lt lib files, rfl⟩
  intro i f b hmem ht hb
  refine batchEntries_mem hmem ?_
  simp [batchItem, ht, hb, zipName]

/-- Witness for `batch_entry_naming`: in the concrete two-item batch, the
image item at position 1 yields the entry `001_shirt.jpg`, and
`base_name "photo.png" = "photo"`. -/
theorem batch_entry_naming_witness :
    (⟨pad3 1 ++ "_" ++ base_name imgFile.filename ++ ".jpg", [255, 216]⟩ : ZipEntry)
        ∈ batchEntries idLib demoBatch ∧
    base_name ("photo" ++ "." ++ "png") = "photo" :=
  ⟨(batch_entry_naming idLib demoBatch).1 1 imgFile [255, 216]
      (by decide) (by decide) rfl,
   (batch_entry_naming idLib demoBatch).2.2.1 "photo" "png" (by decide)⟩

/-- C3: for a batch of valid size the endpoint always succeeds — an item
whose declared content type is not `image/*` is skipped, an item whose
processing raises is skipped, a remaining successful item's entry is in the
archive, and no individual failure fails the batch. -/
theorem batch_skip_policy (lib : ImageLib) (files : List UploadFile)
    (h1 : 1 ≤ files.length) (h2 : files.length ≤ MAX_BATCH_SIZE) :
    (∃ r : BatchResponse, remove_background_batch lib files = .ok r
        ∧ r.entries = batchEntries lib files) ∧
    (∀ i f, (i, f) ∈ files.enum →
        startswith f.content_type "image/" = false → batchItem lib i f = none) ∧
    (∀ i f e, (i, f) ∈ files.enum →
        process_image lib f.contents = .error e → batchItem lib i f = none) ∧
    (∀ i f e, (i, f) ∈ files.enum → batchItem lib i f = some e →
        e ∈ batchEntries lib files) := by
  refine ⟨?_, ?_, ?_, fun i f e hm hi => batchEntries_mem hm hi⟩
  · refine ⟨⟨batchEntries lib files, "application/zip",
        "attachment; filename=\"processed_garments.zip\""⟩, ?_, rfl⟩
    unfold remove_background_batch
    rw [if_neg (by omega), if_neg (by omega)]
  · intro i f _ hs
    simp [batchItem, hs]
  · intro i f e _ he
    cases hs : startswith f.content_type "image/" <;> simp [batchItem, hs, he]

/-- Witness for `batch_skip_policy`: the concrete mixed batch succeeds and
its non-image item at position 0 is skipped. -/
theorem batch_skip_policy_witness :
    (∃ r : BatchResponse, remove_background_batch idLib demoBatch = .ok r
        ∧ r.entries = batchEntries idLib demoBatch) ∧
    batchItem idLib 0 textFile = none :=
  ⟨(batch_skip_policy idLib demoBatch (by decide) (by decide)).1,
   (batch_skip_policy idLib demoBatch (by decide) (by decide)).2.1 0 textFile
      (by decide) (by decide)⟩

/-- C8: a batch of valid size in which every item is skipped (non-image
content type) or fails to process still yields a success response whose
archive has zero entries — there is no validation against an all-failed
batch. -/
theorem batch_all_skipped_still_ok (lib : ImageLib) (files : List UploadFile)
    (h1 : 1 ≤ files.length) (h2 : files.length ≤ MAX_BATCH_SIZE)
    (hall : ∀ i f, (i, f) ∈ files.enum →
      startswith f.content_type "image/" = false ∨
      ∃ e, process_image lib f.contents = .error e) :
    remove_background_batch lib files =
      .ok ⟨[], "application/zip",
           "attachment; filename=\"processed_garments.zip\""⟩ := by
  have hnone : ∀ p ∈ files.enum,
      ((batchItem lib p.1 p.2).map fun e => (p.1, e)) = none := by
    intro p hp
    rcases hall p.1 p.2 hp with hskip | ⟨e, he⟩
    · simp [batchItem, hskip]
    · cases hs : startswith p.2.content_type "image/" <;>
        simp [batchItem, hs, he]
  have hentries : batchEntries lib files = [] := by
    unfold batchEntries batchEntriesIdx
    rw [List.filterMap_eq_nil_iff.mpr hnone]
    rfl
  unfold remove_background_batch
  rw [if_neg (by omega), if_neg (by omega), hentries]

/-- Witness for `batch_all_skipped_still_ok`: a singleton batch holding one
`text/plain` item returns HTTP 200 with an empty archive. -/
theorem batch_all_skipped_still_ok_witness :
    remove_background_batch idLib [textFile] =
      .ok ⟨[], "application/zip",
           "attachment; filename=\"processed_garments.zip\""⟩ :=
  batch_all_skipped_still_ok idLib [textFile] (by decide) (by decide)
    (by
      intro i f hf
      rw [show List.enum [textFile] = [(0, textFile)] from rfl] at hf
      have hif := List.mem_singleton.mp hf
      injection hif with hif1 hif2
      subst hif2
      exact Or.inl (by decide))

/-- C10: in every batch response (batch size at most 15), the names of the
archive entries are pairwise distinct — every name starts with the item's
distinct three-digit index — and every name ends in `.jpg`. -/
theorem batch_zip_names_distinct (lib : ImageLib) (files : List UploadFile)
    (hlen : files.length ≤ MAX_BATCH_SIZE) :
    List.Pairwise (fun e₁ e₂ : ZipEntry => e₁.name ≠ e₂.name)
        (batchEntries lib files) ∧
    ∀ e ∈ batchEntries lib files, ".jpg".data <:+ e.name.data := by
  constructor
  · have hp : (batchEntriesIdx lib files).Pairwise (fun a b => a.1 < b.1) :=
      (List.pairwise_map).mp (batchIdx_pairwise_lt lib files)
    have hp2 : (batchEntriesIdx lib files).Pairwise
        (fun a b => a.2.name ≠ b.2.name) := by
      refine hp.imp_of_mem ?_
      intro a b ha hb hab
      obtain ⟨fa, hfa, hia⟩ := mem_batchEntriesIdx ha
      obtain ⟨fb, hfb, hib⟩ := mem_batchEntriesIdx hb
      obtain ⟨ba, _, hea⟩ := batchItem_eq_some hia
      obtain ⟨bb, _, heb⟩ := batchItem_eq_some hib
      rw [hea, heb]
      exact zipName_ne (lt_of_lt_of_le (enum_fst_lt hfa) hlen)
        (lt_of_lt_of_le (enum_fst_lt hfb) hlen) (Nat.ne_of_lt hab)
        fa.filename fb.filename
    exact (List.pairwise_map).mpr hp2
  · intro e he
    obtain ⟨⟨i, e'⟩, hpair, hsnd⟩ := List.mem_map.mp he
    obtain ⟨f, _, hitem⟩ := mem_batchEntriesIdx hpair
    obtain ⟨b, _, hee⟩ := batchItem_eq_some hitem
    have : e = ⟨zipName i f.filename, b⟩ := by rw [← hsnd, hee]
    rw [this]
    exact zipName_suffix i f.filename

/-- Witness for `batch_zip_names_distinct`: a concrete batch of two items
sharing the filename `shirt.png`. -/
theorem batch_zip_names_distinct_witness :
    List.Pairwise (fun e₁ e₂ : ZipEntry => e₁.name ≠ e₂.name)
        (batchEntries idLib dupBatch) ∧
    ∀ e ∈ batchEntries idLib dupBatch, ".jpg".data <:+ e.name.data :=
  batch_zip_names_distinct idLib dupBatch (by decide)

/-- The pipeline's result does not depend on the logger state it starts
from: the first component of the logged run equals the pure run. -/
theorem pipelineCoreLog_fst (lib : ImageLib) (log : List String) (b : Bytes) :
    (pipelineCoreLog lib log b).1 = pipelineCore lib b := by
  unfold pipelineCoreLog pipelineCore
  cases h0 : lib.decode b with
  | error m => rfl
  | ok i0 =>
    simp only []
    cases h1 : convertStep lib i0 with
    | error m => rfl
    | ok i1 =>
      simp only []
      cases h2 : optimize_image lib i1 with
      | error m => rfl
      | ok i2 =>
        simp only []
        cases h3 : lib.removeBg i2 with
        | error m => rfl
        | ok o =>
          simp only []
          cases h4 : compositeStep lib o with
          | error m => rfl
          | ok bg =>
            simp only []
            cases h5 : toRGBStep lib bg with
            | error m => rfl
            | ok fi => rfl

/-- C9: the single-image pipeline is a deterministic function of its input
bytes (for a fixed, hence deterministic, external library including the
removal model): the logged run's result is the pure function of the bytes,
independent of the pre-existing logger state, so running it twice in
sequence on the same bytes — the second run starting from the logger state
the first one left — produces identical output. -/
theorem pipeline_deterministic (lib : ImageLib) (log : List String) (b : Bytes) :
    (process_image_log lib log b).1 = process_image lib b ∧
    (process_image_log lib (process_image_log lib log b).2 b).1
      = (process_image_log lib log b).1 := by
  have key : ∀ lg : List String,
      (process_image_log lib lg b).1 = process_image lib b := by
    intro lg
    have hfst := pipelineCoreLog_fst lib lg b
    unfold process_image_log process_image
    cases hc : pipelineCoreLog lib lg b with
    | mk r l2 =>
      rw [hc] at hfst
      cases r <;> simp only [] <;> rw [← hfst]
  exact ⟨key log, (key _).trans (key log).symm⟩

end OutfitFlow
